import Mathlib

/-!
Verification development for the ANTS repository.

Two source files are embedded:

* ants/network_scan.py — parsing of iwlist scan output (get_level,
  get_essid, get_cells) and selection of the strongest cell
  (max_cell_level).  Python exceptions are modelled with an explicit
  error type PyErr carried in Except.

* sigpyc/sigcontrol.py — the SiGPyC_Controller process supervisor.
  Subprocess behaviour is modelled by an explicit environment (ProcEnv)
  that assigns each job the supervisor may launch an optional natural
  exit: some (n, c) means the process exits on its own at busy-poll
  iteration n with exit code c, and none means it never exits by itself
  (e.g. the iperf server, whose arguments request an effectively
  unbounded run time).  Every busy-poll loop takes a fuel bound and an
  operation returns none when the bound is exhausted, so an operation
  whose loop would spin forever returns none at every fuel.
-/

set_option maxRecDepth 8192

/-! ### ants/network_scan.py -/

/-- A parsed Wi-Fi cell.  The Python constructor Cell(e, l) stores the
results of get_essid and get_level, each of which may be None. -/
structure Cell where
  essid : Option String
  level : Option String
deriving DecidableEq

/-- The Python exceptions the scan pipeline can raise: int(None) raises
TypeError, int of a non-numeric string raises ValueError, and indexing
an empty list raises IndexError. -/
inductive PyErr
  | typeError
  | valueError
  | indexError
deriving DecidableEq

deriving instance DecidableEq for Except

/-- Accumulate decimal digits into a natural number. -/
def digitsToNat : List Char → Nat → Nat
  | [], acc => acc
  | c :: cs, acc => digitsToNat cs (acc * 10 + (c.toNat - Char.toNat (Char.ofNat 48)))

/-- Python int() applied to the characters of a string: an optional
leading minus sign followed by at least one decimal digit.  (Python also
tolerates a leading plus, surrounding whitespace and digit-group
underscores; no value produced in this repository uses those forms.) -/
def pyIntOfChars : List Char → Option Int
  | [] => none
  | c :: cs =>
    if c == Char.ofNat 45 then
      if !cs.isEmpty && cs.all Char.isDigit then some (-(digitsToNat cs 0 : Int)) else none
    else
      if (c :: cs).all Char.isDigit then some ((digitsToNat (c :: cs) 0 : Int)) else none

/-- Python int(x) for x a string or None, with the exception raised on
failure made explicit. -/
def pyInt? : Option String → Except PyErr Int
  | none => .error .typeError
  | some s =>
    match pyIntOfChars s.data with
    | none => .error .valueError
    | some v => .ok v

/-- The numeric level of a cell when its level parses, and 0 otherwise
(only used to state theorems whose hypotheses ensure the parse
succeeds). -/
def lvl (a : Cell) : Int :=
  match pyInt? a.level with
  | .ok v => v
  | .error _ => 0

/-- The loop of max_cell_level: mx is the best level seen so far
(initialised to 0 by the source), index the position of the best cell
seen so far, i the position of the current cell.  Returns the final
index, or the first exception raised by int(a.level). -/
def maxCellLoop : List Cell → Int → Nat → Nat → Except PyErr Nat
  | [], _, index, _ => .ok index
  | a :: rest, mx, index, i =>
    match pyInt? a.level with
    | .error e => .error e
    | .ok v => if mx < v then maxCellLoop rest v i (i + 1) else maxCellLoop rest mx index (i + 1)

/-- max_cell_level from ants/network_scan.py.  On the empty list the
loop leaves index = 0 and arr[0] raises IndexError. -/
def max_cell_level (arr : List Cell) : Except PyErr Cell :=
  match maxCellLoop arr 0 0 0 with
  | .error e => .error e
  | .ok index =>
    match arr[index]? with
    | some c => .ok c
    | none => .error .indexError

/-- If pat is a prefix of the character list, return the characters that
follow it. -/
def dropPrefixChars : List Char → List Char → Option (List Char)
  | [], cs => some cs
  | _ :: _, [] => none
  | p :: ps, c :: cs => if p == c then dropPrefixChars ps cs else none

/-- Greedy match of one to three digits followed by the literal /100:
three digits are tried here, see matchLevelNum for the backtracking. -/
def levelTry3 : List Char → Option String
  | d1 :: d2 :: d3 :: c1 :: c2 :: c3 :: c4 :: _ =>
    if d1.isDigit && d2.isDigit && d3.isDigit
        && c1 == Char.ofNat 47 && c2 == Char.ofNat 49 && c3 == Char.ofNat 48 && c4 == Char.ofNat 48
    then some (String.mk [d1, d2, d3]) else none
  | _ => none

/-- Two digits followed by /100. -/
def levelTry2 : List Char → Option String
  | d1 :: d2 :: c1 :: c2 :: c3 :: c4 :: _ =>
    if d1.isDigit && d2.isDigit
        && c1 == Char.ofNat 47 && c2 == Char.ofNat 49 && c3 == Char.ofNat 48 && c4 == Char.ofNat 48
    then some (String.mk [d1, d2]) else none
  | _ => none

/-- One digit followed by /100. -/
def levelTry1 : List Char → Option String
  | d1 :: c1 :: c2 :: c3 :: c4 :: _ =>
    if d1.isDigit && c1 == Char.ofNat 47 && c2 == Char.ofNat 49 && c3 == Char.ofNat 48 && c4 == Char.ofNat 48
    then some (String.mk [d1]) else none
  | _ => none

/-- The greedy quantifier [0-9]\x7b1,3\x7d followed by /100: the regex
engine tries three repetitions first, then two, then one. -/
def matchLevelNum (cs : List Char) : Option String :=
  match levelTry3 cs with
  | some g => some g
  | none =>
    match levelTry2 cs with
    | some g => some g
    | none => levelTry1 cs

/-- re.search for the level pattern: at each position, match the literal
text Signal level= and then the digit group; on failure resume the
search one character further. -/
def searchLevel : List Char → Option String
  | [] => none
  | c :: cs =>
    match dropPrefixChars "Signal level=".data (c :: cs) with
    | some rest =>
      match matchLevelNum rest with
      | some g => some g
      | none => searchLevel cs
    | none => searchLevel cs

/-- get_level from ants/network_scan.py. -/
def get_level (s : String) : Option String :=
  searchLevel s.data

/-- The greedy group (.*) followed by a closing double quote: the dot
does not match a newline, so the group extends to the last double quote
on the current line; none when no such quote exists. -/
def greedyToQuote : List Char → Option (List Char)
  | [] => none
  | c :: cs =>
    if c == Char.ofNat 10 then none
    else
      match greedyToQuote cs with
      | some p => some (c :: p)
      | none => if c == Char.ofNat 34 then some [] else none

/-- re.search for the ESSID pattern: at each position, match the literal
opening text, then the greedy group up to a closing quote. -/
def searchEssid : List Char → Option String
  | [] => none
  | c :: cs =>
    match dropPrefixChars "ESSID:\"".data (c :: cs) with
    | some rest =>
      match greedyToQuote rest with
      | some p => some (String.mk p)
      | none => searchEssid cs
    | none => searchEssid cs

/-- get_essid from ants/network_scan.py. -/
def get_essid (s : String) : Option String :=
  searchEssid s.data

/-- Worker for Python str.split with a non-empty separator: scan left to
right, emit the accumulated chunk when the separator is a prefix of the
remaining input and continue after it.  The fuel argument is set to the
length of the input, which one step always shrinks by at least one
character, so the fuel-exhausted row is unreachable in actual use. -/
def splitAuxF (sep : List Char) : Nat → List Char → List Char → List (List Char)
  | _, [], acc => [acc.reverse]
  | 0, cs, acc => [acc.reverse ++ cs]
  | fuel + 1, c :: cs, acc =>
    match dropPrefixChars sep (c :: cs) with
    | some rest => acc.reverse :: splitAuxF sep fuel rest []
    | none => splitAuxF sep fuel cs (c :: acc)

/-- Python str.split(sep) for the non-empty separators used by the
source (Python raises ValueError on an empty separator; the source only
ever splits on the word Cell). -/
def pySplit (s sep : String) : List String :=
  (splitAuxF sep.data s.data.length s.data []).map (fun l => String.mk l)

/-- get_cells from ants/network_scan.py: split the scan text on the word
Cell, skip the text before the first occurrence (the loop ignores index
0), and build a Cell from each remaining block. -/
def get_cells (s : String) : List Cell :=
  ((pySplit s "Cell").drop 1).map (fun a => { essid := get_essid a, level := get_level a })

/-! ### sigpyc/sigcontrol.py — data model -/

/-- OS-level state of a launched subprocess as observed when the owning
operation returns: still running, exited on its own with a code, or
forcibly terminated by Popen.kill. -/
inductive ProcStatus
  | running
  | exited (code : Int)
  | killed
deriving DecidableEq

/-- A subprocess.Popen handle: the argument list the process was
launched with, the returncode recorded by poll (absent until some poll
observes the exit), and the OS status at the owning operation's
return. -/
structure Proc where
  args : List String
  returncode : Option Int
  status : ProcStatus
deriving DecidableEq

/-- The job kinds the supervisor launches. -/
inductive JobKind
  | usrp
  | sgController
  | iperfClient
  | iperfServer
deriving DecidableEq

/-- Observable actions of one supervisor operation, in program order. -/
inductive Event
  | spawn (k : JobKind) (args : List String)
  | kill (k : JobKind)
deriving DecidableEq

/-- Behaviour oracle for one operation: for each job the operation may
launch, some (n, c) means the process exits on its own at poll iteration
n with exit code c; none means it never exits on its own. -/
structure ProcEnv where
  usrpExit : Option (Nat × Int)
  controllerExit : Option (Nat × Int)
  clientExit : Option (Nat × Int)
  serverExit : Option (Nat × Int)
deriving DecidableEq

/-- The state of SiGPyC_Controller from sigpyc/sigcontrol.py.  The run
duration is stored by the source as a number used only through str(), so
the embedding keeps its rendered form.  The MATLAB engine fields are out
of scope (external collaborator). -/
structure SiGPyC_Controller where
  usrp_proc : Option Proc
  controller_proc : Option Proc
  converter_proc : Option Proc
  plotter_proc : Option Proc
  iperf_client_proc : Option Proc
  iperf_server_proc : Option Proc
  iperf_client_addr : Option String
  iperf_server_addr : Option String
  iperf_rate : Option String
  iperf_mem_addr : Option String
  iperf_client_args : List String
  iperf_server_args : List String
  run_time : String
  file_name : String
  working_dir : String
  usrp_control_args : List String
  sg_controller_args : List String
deriving DecidableEq

/-- Python str() of an optional string: str(None) is the text None. -/
def pyStrOpt : Option String → String
  | none => "None"
  | some s => s

/-- Python truthiness of the optional address fields: None and the empty
string are falsy, every other string is truthy. -/
def truthy : Option String → Bool
  | none => false
  | some s => !(s == "")

/-- The capture argument list materialized before every capture launch:
interpreter, script path, current file name, current run duration. -/
def captureArgs (wd fn rt : String) : List String :=
  ["python", wd ++ "/utils/writeIQ.py", fn, rt]

/-- SiGPyC_Controller.__init__ with the given working directory
(os.getcwd()) and test_mode flag.  The iperf argument lists are built
here, from the then-current (unset) address, rate and memory-address
fields, and are never rebuilt afterwards; in test mode the client list
is overwritten with the simulator invocation, still at construction. -/
def initController (wd : String) (test_mode : Bool) : SiGPyC_Controller :=
  let client_addr : Option String := none
  let rate : Option String := none
  let mem : Option String := none
  let base_client_args : List String :=
    ["iperf", "-c", pyStrOpt client_addr, "-u", "-b" ++ pyStrOpt rate ++ "M", "-S",
      pyStrOpt mem, "-t10000000000"]
  { usrp_proc := none
    controller_proc := none
    converter_proc := none
    plotter_proc := none
    iperf_client_proc := none
    iperf_server_proc := none
    iperf_client_addr := client_addr
    iperf_server_addr := none
    iperf_rate := rate
    iperf_mem_addr := mem
    iperf_client_args :=
      if test_mode then ["python3", wd ++ "/tests/iperf_sim.py", pyStrOpt client_addr]
      else base_client_args
    iperf_server_args := ["iperf", "-s", "-u", "-t100000000000000"]
    run_time := "0.5"
    file_name := ""
    working_dir := wd
    usrp_control_args :=
      if test_mode then ["python3", wd ++ "/tests/usrp_sim.py"]
      else ["python", wd ++ "/utils/writeIQ.py", "123", "0.5"]
    sg_controller_args :=
      if test_mode then ["python3", wd ++ "/tests/sg_sim.py"]
      else ["python3", wd ++ "/utils/ramp_control.py", "0.5"] }

/-- A freshly spawned process handle: no returncode recorded yet. -/
def spawnProc (args : List String) : Proc :=
  { args := args, returncode := none, status := .running }

/-- Popen.kill issued at poll time T against a process with natural-exit
behaviour e: if the process had already exited on its own the signal has
no effect, otherwise the process is forcibly terminated.  Its returncode
is never polled afterwards by the source, so it stays unrecorded. -/
def killProc (e : Option (Nat × Int)) (T : Nat) (p : Proc) : Proc :=
  { p with status :=
      match e with
      | some (m, c) => if m ≤ T then .exited c else .killed
      | none => .killed }

/-- The busy-poll loop on one process (while proc.poll() is None):
at iteration t the poll observes the exit when the natural exit time has
been reached; the loop then breaks, returning the break iteration and
the recorded code.  none when the fuel runs out first — in particular,
for every fuel when the process never exits on its own. -/
def pollUntilExit (e : Option (Nat × Int)) (t : Nat) : Nat → Option (Nat × Int)
  | 0 => none
  | fuel + 1 =>
    match e with
    | none => pollUntilExit e (t + 1) fuel
    | some (n, c) => if n ≤ t then some (t, c) else pollUntilExit e (t + 1) fuel

/-- One poll of one process inside a joint loop: a previously recorded
returncode is sticky, otherwise the poll records the exit code when the
natural exit time has been reached. -/
def pollStep (e : Option (Nat × Int)) (r : Option Int) (t : Nat) : Option Int :=
  match r with
  | some c => some c
  | none =>
    match e with
    | some (n, c) => if n ≤ t then some c else none
    | none => none

/-- The conjunctive busy-poll loop (poll both, break when both
returncodes are present), returning the two recorded codes. -/
def pollBoth (ea eb : Option (Nat × Int)) : Option Int → Option Int → Nat → Nat → Option (Int × Int)
  | _, _, _, 0 => none
  | ra, rb, t, fuel + 1 =>
    match pollStep ea ra t, pollStep eb rb t with
    | some ca, some cb => some (ca, cb)
    | some ca, none => pollBoth ea eb (some ca) none (t + 1) fuel
    | none, some cb => pollBoth ea eb none (some cb) (t + 1) fuel
    | none, none => pollBoth ea eb none none (t + 1) fuel

/-! ### sigpyc/sigcontrol.py — operations -/

/-- SiGPyC_Controller.start_usrp: rebuild the capture arguments from the
current file name and run duration, spawn the capture process, busy-poll
it until it exits. -/
def start_usrp (s : SiGPyC_Controller) (env : ProcEnv) (fuel : Nat) :
    Option (SiGPyC_Controller × List Event) :=
  let args := captureArgs s.working_dir s.file_name s.run_time
  match pollUntilExit env.usrpExit 0 fuel with
  | none => none
  | some (_, c) =>
    some ({ s with
        usrp_control_args := args
        usrp_proc := some { args := args, returncode := some c, status := .exited c } },
      [Event.spawn .usrp args])

/-- SiGPyC_Controller.start_controller: spawn the signal-generator
controller from sg_controller_args (the args parameter of the source is
unused) and busy-poll it until it exits. -/
def start_controller (s : SiGPyC_Controller) (_args : List String) (env : ProcEnv) (fuel : Nat) :
    Option (SiGPyC_Controller × List Event) :=
  match pollUntilExit env.controllerExit 0 fuel with
  | none => none
  | some (_, c) =>
    some ({ s with
        controller_proc :=
          some { args := s.sg_controller_args, returncode := some c, status := .exited c } },
      [Event.spawn .sgController s.sg_controller_args])

/-- SiGPyC_Controller.start_usrp_controller: rebuild the capture
arguments, spawn capture then controller, and poll both until both
returncodes are present (conjunctive barrier). -/
def start_usrp_controller (s : SiGPyC_Controller) (env : ProcEnv) (fuel : Nat) :
    Option (SiGPyC_Controller × List Event) :=
  let args := captureArgs s.working_dir s.file_name s.run_time
  match pollBoth env.usrpExit env.controllerExit none none 0 fuel with
  | none => none
  | some (cu, cc) =>
    some ({ s with
        usrp_control_args := args
        usrp_proc := some { args := args, returncode := some cu, status := .exited cu }
        controller_proc :=
          some { args := s.sg_controller_args, returncode := some cc, status := .exited cc } },
      [Event.spawn .usrp args, Event.spawn .sgController s.sg_controller_args])

/-- SiGPyC_Controller.start_usrp_iperf: spawn the iperf client only when
the client address is truthy, spawn the iperf server unconditionally,
rebuild the capture arguments and spawn the capture process; busy-poll
the capture process alone; once its exit is recorded, kill the client
(under the same truthiness guard) and the server. -/
def start_usrp_iperf (s : SiGPyC_Controller) (env : ProcEnv) (fuel : Nat) :
    Option (SiGPyC_Controller × List Event) :=
  let launchClient := truthy s.iperf_client_addr
  let clientArgs := s.iperf_client_args
  let serverArgs := s.iperf_server_args
  let args := captureArgs s.working_dir s.file_name s.run_time
  match pollUntilExit env.usrpExit 0 fuel with
  | none => none
  | some (T, c) =>
    some ({ s with
        iperf_client_proc :=
          if launchClient then some (killProc env.clientExit T (spawnProc clientArgs))
          else s.iperf_client_proc
        iperf_server_proc := some (killProc env.serverExit T (spawnProc serverArgs))
        usrp_control_args := args
        usrp_proc := some { args := args, returncode := some c, status := .exited c } },
      (if launchClient then [Event.spawn .iperfClient clientArgs] else [])
        ++ [Event.spawn .iperfServer serverArgs, Event.spawn .usrp args]
        ++ (if launchClient then [Event.kill .iperfClient] else [])
        ++ [Event.kill .iperfServer])

/-- SiGPyC_Controller.start_iperf: spawn client and server
unconditionally and poll both until both returncodes are present. -/
def start_iperf (s : SiGPyC_Controller) (env : ProcEnv) (fuel : Nat) :
    Option (SiGPyC_Controller × List Event) :=
  match pollBoth env.clientExit env.serverExit none none 0 fuel with
  | none => none
  | some (cc, cs) =>
    some ({ s with
        iperf_client_proc :=
          some { args := s.iperf_client_args, returncode := some cc, status := .exited cc }
        iperf_server_proc :=
          some { args := s.iperf_server_args, returncode := some cs, status := .exited cs } },
      [Event.spawn .iperfClient s.iperf_client_args, Event.spawn .iperfServer s.iperf_server_args])

/-! ### sigpyc — mutation and sequential-run models -/

/-- The GUI-driven mutations of the iperf configuration fields. -/
inductive IperfMut
  | setClientAddr (v : Option String)
  | setRate (v : Option String)
  | setMemAddr (v : Option String)
deriving DecidableEq

/-- Apply one iperf-field mutation. -/
def applyIperfMut (s : SiGPyC_Controller) : IperfMut → SiGPyC_Controller
  | .setClientAddr v => { s with iperf_client_addr := v }
  | .setRate v => { s with iperf_rate := v }
  | .setMemAddr v => { s with iperf_mem_addr := v }

/-- Apply a sequence of iperf-field mutations. -/
def applyIperfMuts (s : SiGPyC_Controller) (ms : List IperfMut) : SiGPyC_Controller :=
  ms.foldl applyIperfMut s

/-- One sequential step against the supervisor: a start operation or a
field mutation. -/
inductive SupOp
  | usrp
  | controller
  | usrpController
  | usrpIperf
  | iperf
  | setFileName (v : String)
  | setRunTime (v : String)
  | setClientAddr (v : Option String)
  | setRate (v : Option String)
  | setMemAddr (v : Option String)
deriving DecidableEq

/-- Run one sequential step. -/
def runOp (s : SiGPyC_Controller) : SupOp → ProcEnv → Nat → Option SiGPyC_Controller
  | .usrp, env, fuel => (start_usrp s env fuel).map Prod.fst
  | .controller, env, fuel => (start_controller s [] env fuel).map Prod.fst
  | .usrpController, env, fuel => (start_usrp_controller s env fuel).map Prod.fst
  | .usrpIperf, env, fuel => (start_usrp_iperf s env fuel).map Prod.fst
  | .iperf, env, fuel => (start_iperf s env fuel).map Prod.fst
  | .setFileName v, _, _ => some { s with file_name := v }
  | .setRunTime v, _, _ => some { s with run_time := v }
  | .setClientAddr v, _, _ => some { s with iperf_client_addr := v }
  | .setRate v, _, _ => some { s with iperf_rate := v }
  | .setMemAddr v, _, _ => some { s with iperf_mem_addr := v }

/-- Run a sequence of steps, each with its own behaviour oracle and
fuel; none as soon as one step does not return. -/
def runOps : SiGPyC_Controller → List (SupOp × ProcEnv × Nat) → Option SiGPyC_Controller
  | s, [] => some s
  | s, step :: rest =>
    match runOp s step.1 step.2.1 step.2.2 with
    | none => none
    | some s2 => runOps s2 rest

/-! ### Observation helpers for the theorems -/

/-- True unless the status is running. -/
def statusNotRunning : ProcStatus → Bool
  | .running => false
  | _ => true

/-- A handle slot that, when occupied, holds a process that is not
running. -/
def procNotRunning : Option Proc → Bool
  | none => true
  | some p => statusNotRunning p.status

/-- A handle slot that is occupied and whose process has a recorded
returncode. -/
def optRecorded : Option Proc → Bool
  | none => false
  | some p => p.returncode.isSome

/-- A handle slot that is occupied and whose process is not running. -/
def launchedNotRunning : Option Proc → Bool
  | none => false
  | some p => statusNotRunning p.status

/-- No handle slot of the supervisor holds a running process. -/
def allNotRunning (s : SiGPyC_Controller) : Bool :=
  procNotRunning s.usrp_proc && procNotRunning s.controller_proc &&
  procNotRunning s.converter_proc && procNotRunning s.plotter_proc &&
  procNotRunning s.iperf_client_proc && procNotRunning s.iperf_server_proc

/-- The trace contains a spawn of the given job kind. -/
def spawnsKind (tr : List Event) (k : JobKind) : Bool :=
  tr.any (fun e =>
    match e with
    | .spawn k2 _ => decide (k2 = k)
    | .kill _ => false)

/-- The trace contains a kill of the given job kind. -/
def killsKind (tr : List Event) (k : JobKind) : Bool :=
  tr.any (fun e =>
    match e with
    | .spawn _ _ => false
    | .kill k2 => decide (k2 = k))

/-- C1 postcondition: the primary capture job has a recorded exit
status, the auxiliary server handle is occupied by a non-running process
and was killed, and likewise for the client when it was launched. -/
def auxTerminated (s : SiGPyC_Controller) (out : SiGPyC_Controller × List Event) : Bool :=
  optRecorded out.1.usrp_proc &&
  launchedNotRunning out.1.iperf_server_proc &&
  decide (Event.kill JobKind.iperfServer ∈ out.2) &&
  (if truthy s.iperf_client_addr then
    launchedNotRunning out.1.iperf_client_proc &&
      decide (Event.kill JobKind.iperfClient ∈ out.2)
   else true)

/-- C3 postcondition: the client is spawned and killed exactly when the
configured address is truthy (with the handle slot untouched otherwise),
while the server is spawned and killed unconditionally. -/
def clientIffAddr (s : SiGPyC_Controller) (out : SiGPyC_Controller × List Event) : Bool :=
  (spawnsKind out.2 .iperfClient == truthy s.iperf_client_addr) &&
  (killsKind out.2 .iperfClient == truthy s.iperf_client_addr) &&
  (if truthy s.iperf_client_addr then true
   else decide (out.1.iperf_client_proc = s.iperf_client_proc)) &&
  spawnsKind out.2 .iperfServer && killsKind out.2 .iperfServer

/-- The argument list of the occupied capture handle. -/
def capArgsOf : Option Proc → List String
  | none => []
  | some p => p.args

/-- C4 postcondition: the stored capture argument list and the capture
handle were both (re)built from the current file name and run duration,
and the spawn event carries that list. -/
def captureRebuilt (s : SiGPyC_Controller) (out : SiGPyC_Controller × List Event) : Bool :=
  decide (out.1.usrp_control_args = captureArgs s.working_dir s.file_name s.run_time) &&
  decide (capArgsOf out.1.usrp_proc = captureArgs s.working_dir s.file_name s.run_time) &&
  decide (Event.spawn JobKind.usrp (captureArgs s.working_dir s.file_name s.run_time) ∈ out.2)

/-- Both joint handles of start_usrp_controller carry a recorded
returncode. -/
def bothRecordedUsrpCtl (s : SiGPyC_Controller) : Bool :=
  optRecorded s.usrp_proc && optRecorded s.controller_proc

/-- Both joint handles of start_iperf carry a recorded returncode. -/
def bothRecordedIperf (s : SiGPyC_Controller) : Bool :=
  optRecorded s.iperf_client_proc && optRecorded s.iperf_server_proc

/-- Concrete cell list for the scenario with levels 42, 77, 10. -/
def cellsScenario : List Cell :=
  [{ essid := some "alpha", level := some "42" },
   { essid := some "beta", level := some "77" },
   { essid := some "gamma", level := some "10" }]

/-- Concrete scan text whose single cell block contains an ESSID but no
signal-level text. -/
def scanNoLevel : String :=
  "header Cell 01: ESSID:\"foo\" done"

/-! ### Helper lemmas -/

/-- The busy-poll loop on one process terminates as soon as the fuel
reaches past the natural exit time, and records the exit code. -/
theorem pollUntilExit_term (n : Nat) (c : Int) :
    ∀ (fuel t : Nat), 0 < fuel → n < t + fuel →
      ∃ T, pollUntilExit (some (n, c)) t fuel = some (T, c) := by
  intro fuel
  induction fuel with
  | zero => intro t h0 _; omega
  | succ fuel ih =>
    intro t _ h
    by_cases hnt : n ≤ t
    · exact ⟨t, by simp [pollUntilExit, hnt]⟩
    · obtain ⟨T, hT⟩ := ih (t + 1) (by omega) (by omega)
      refine ⟨T, ?_⟩
      simp only [pollUntilExit, if_neg hnt]
      exact hT

/-- A process handle that was just killed is never in the running
state: it is either killed or had already exited on its own. -/
theorem killProc_statusNotRunning (e : Option (Nat × Int)) (T : Nat) (p : Proc) :
    statusNotRunning (killProc e T p).status = true := by
  rcases e with _ | ⟨m, c⟩
  · rfl
  · by_cases h : m ≤ T <;> simp [killProc, statusNotRunning, h]

/-- The iperf argument lists of the supervisor are untouched by any
sequence of iperf-field mutations. -/
theorem applyIperfMuts_args : ∀ (ms : List IperfMut) (s : SiGPyC_Controller),
    (applyIperfMuts s ms).iperf_client_args = s.iperf_client_args ∧
    (applyIperfMuts s ms).iperf_server_args = s.iperf_server_args := by
  intro ms
  induction ms with
  | nil => intro s; exact ⟨rfl, rfl⟩
  | cons m rest ih =>
    intro s
    have h := ih (applyIperfMut s m)
    cases m <;> simpa [applyIperfMuts, applyIperfMut] using h

/-! ### Claim theorems for the process supervisor -/

/-- C1: start_usrp_iperf blocks only on the primary capture job (the
operation terminates whenever the primary exits within the fuel bound,
whatever the auxiliary processes do, including never exiting on their
own), and whenever the operation returns, the primary's exit status is
recorded, kill events were issued against the auxiliary iperf
processes, and no auxiliary process launched by the operation is still
in the running state. -/
theorem c1_start_usrp_iperf_asymmetric_barrier :
    (∀ (s : SiGPyC_Controller) (n k : Nat) (c : Int) (co ce se : Option (Nat × Int)),
      (start_usrp_iperf s ⟨some (n, c), co, ce, se⟩ (n + k + 1)).isSome = true) ∧
    (∀ (s : SiGPyC_Controller) (env : ProcEnv) (fuel : Nat),
      (start_usrp_iperf s env fuel).all (fun out => auxTerminated s out) = true) := by
  constructor
  · intro s n k c co ce se
    obtain ⟨T, hT⟩ := pollUntilExit_term n c (n + k + 1) 0 (by omega) (by omega)
    simp [start_usrp_iperf, hT]
  · intro s env fuel
    unfold start_usrp_iperf
    cases hp : pollUntilExit env.usrpExit 0 fuel with
    | none => rfl
    | some Tc =>
      obtain ⟨T, c⟩ := Tc
      by_cases ht : truthy s.iperf_client_addr <;>
        simp [auxTerminated, ht, optRecorded, launchedNotRunning, killProc_statusNotRunning]

/-- C2: start_usrp_controller and start_iperf are conjunctive barriers:
whenever either operation returns, both constituent handles carry a
recorded returncode; and each operation does return on a concrete
behaviour where both jobs exit. -/
theorem c2_joint_barriers_record_both :
    (∀ (s : SiGPyC_Controller) (env : ProcEnv) (fuel : Nat),
      (start_usrp_controller s env fuel).all (fun out => bothRecordedUsrpCtl out.1) = true) ∧
    (∀ (s : SiGPyC_Controller) (env : ProcEnv) (fuel : Nat),
      (start_iperf s env fuel).all (fun out => bothRecordedIperf out.1) = true) ∧
    (start_usrp_controller (initController "wd" false)
      ⟨some (0, 0), some (0, 0), none, none⟩ 1).isSome = true ∧
    (start_iperf (initController "wd" false)
      ⟨none, none, some (0, 0), some (0, 0)⟩ 1).isSome = true := by
  refine ⟨?_, ?_, by decide, by decide⟩
  · intro s env fuel
    unfold start_usrp_controller
    cases hp : pollBoth env.usrpExit env.controllerExit none none 0 fuel with
    | none => rfl
    | some p =>
      obtain ⟨cu, cc⟩ := p
      simp [bothRecordedUsrpCtl, optRecorded]
  · intro s env fuel
    unfold start_iperf
    cases hp : pollBoth env.clientExit env.serverExit none none 0 fuel with
    | none => rfl
    | some p =>
      obtain ⟨cc, cs⟩ := p
      simp [bothRecordedIperf, optRecorded]

/-- C3: in start_usrp_iperf the iperf client is spawned, and later
killed, exactly when the configured client address is truthy (non-empty
and not None); with a falsy address the client handle slot is untouched
and no client kill event is issued, while the server is spawned and
killed unconditionally.  The operation does return on a concrete
behaviour with a truthy address. -/
theorem c3_client_spawn_iff_addr :
    (∀ (s : SiGPyC_Controller) (env : ProcEnv) (fuel : Nat),
      (start_usrp_iperf s env fuel).all (fun out => clientIffAddr s out) = true) ∧
    (start_usrp_iperf
      { initController "wd" false with iperf_client_addr := some "10.0.0.1" }
      ⟨some (0, 0), none, none, none⟩ 1).isSome = true := by
  refine ⟨?_, by decide⟩
  intro s env fuel
  unfold start_usrp_iperf
  cases hp : pollUntilExit env.usrpExit 0 fuel with
  | none => rfl
  | some Tc =>
    obtain ⟨T, c⟩ := Tc
    by_cases ht : truthy s.iperf_client_addr <;>
      simp [clientIffAddr, ht, spawnsKind, killsKind]

/-- C4: in start_usrp, start_usrp_controller and start_usrp_iperf the
capture argument list is rebuilt before the launch from the current
working directory, file name and run duration: the stored list, the
launched handle and the spawn event all carry exactly
captureArgs working_dir file_name run_time of the pre-call state; and
start_usrp returns on a concrete behaviour. -/
theorem c4_capture_args_rebuilt :
    (∀ (s : SiGPyC_Controller) (env : ProcEnv) (fuel : Nat),
      (start_usrp s env fuel).all (fun out => captureRebuilt s out) = true) ∧
    (∀ (s : SiGPyC_Controller) (env : ProcEnv) (fuel : Nat),
      (start_usrp_controller s env fuel).all (fun out => captureRebuilt s out) = true) ∧
    (∀ (s : SiGPyC_Controller) (env : ProcEnv) (fuel : Nat),
      (start_usrp_iperf s env fuel).all (fun out => captureRebuilt s out) = true) ∧
    (start_usrp (initController "wd" false) ⟨some (0, 0), none, none, none⟩ 1).isSome = true := by
  refine ⟨?_, ?_, ?_, by decide⟩
  · intro s env fuel
    unfold start_usrp
    cases hp : pollUntilExit env.usrpExit 0 fuel with
    | none => rfl
    | some Tc =>
      obtain ⟨T, c⟩ := Tc
      simp [captureRebuilt, capArgsOf]
  · intro s env fuel
    unfold start_usrp_controller
    cases hp : pollBoth env.usrpExit env.controllerExit none none 0 fuel with
    | none => rfl
    | some p =>
      obtain ⟨cu, cc⟩ := p
      simp [captureRebuilt, capArgsOf]
  · intro s env fuel
    unfold start_usrp_iperf
    cases hp : pollUntilExit env.usrpExit 0 fuel with
    | none => rfl
    | some Tc =>
      obtain ⟨T, c⟩ := Tc
      by_cases ht : truthy s.iperf_client_addr <;>
        simp [captureRebuilt, capArgsOf, ht]

/-- C5: the iperf client and server argument lists are materialized
exactly once, at construction, from the then-current (unset) fields —
in the real mode the client list therefore embeds the rendered texts
None and -bNoneM — and no later mutation of the client address, rate or
memory-address field changes the lists; every later client or server
launch in start_iperf and start_usrp_iperf passes exactly the stored
lists. -/
theorem c5_iperf_args_fixed_at_construction :
    (∀ (wd : String) (tm : Bool) (ms : List IperfMut),
      (applyIperfMuts (initController wd tm) ms).iperf_client_args
          = (initController wd tm).iperf_client_args ∧
      (applyIperfMuts (initController wd tm) ms).iperf_server_args
          = (initController wd tm).iperf_server_args) ∧
    (∀ wd : String, (initController wd false).iperf_client_args
        = ["iperf", "-c", "None", "-u", "-bNoneM", "-S", "None", "-t10000000000"]) ∧
    (∀ (s : SiGPyC_Controller) (env : ProcEnv) (fuel : Nat),
      (start_iperf s env fuel).all (fun out =>
        decide (Event.spawn JobKind.iperfClient s.iperf_client_args ∈ out.2) &&
        decide (Event.spawn JobKind.iperfServer s.iperf_server_args ∈ out.2)) = true) ∧
    (∀ (s : SiGPyC_Controller) (env : ProcEnv) (fuel : Nat),
      (start_usrp_iperf s env fuel).all (fun out =>
        decide (Event.spawn JobKind.iperfServer s.iperf_server_args ∈ out.2) &&
        (if truthy s.iperf_client_addr then
          decide (Event.spawn JobKind.iperfClient s.iperf_client_args ∈ out.2)
         else true)) = true) := by
  refine ⟨fun wd tm ms => applyIperfMuts_args ms (initController wd tm), fun wd => rfl, ?_, ?_⟩
  · intro s env fuel
    unfold start_iperf
    cases hp : pollBoth env.clientExit env.serverExit none none 0 fuel with
    | none => rfl
    | some p =>
      obtain ⟨cc, cs⟩ := p
      simp
  · intro s env fuel
    unfold start_usrp_iperf
    cases hp : pollUntilExit env.usrpExit 0 fuel with
    | none => rfl
    | some Tc =>
      obtain ⟨T, c⟩ := Tc
      by_cases ht : truthy s.iperf_client_addr <;> simp [ht]

/-- C9: the single-launch operations start_usrp and start_controller
return only with a recorded exit status on the launched handle, and
each terminates whenever its process exits within the fuel bound. -/
theorem c9_start_single_records_exit :
    (∀ (s : SiGPyC_Controller) (env : ProcEnv) (fuel : Nat),
      (start_usrp s env fuel).all (fun out => optRecorded out.1.usrp_proc) = true) ∧
    (∀ (s : SiGPyC_Controller) (a : List String) (env : ProcEnv) (fuel : Nat),
      (start_controller s a env fuel).all (fun out => optRecorded out.1.controller_proc) = true) ∧
    (∀ (s : SiGPyC_Controller) (n k : Nat) (c : Int) (co ce se : Option (Nat × Int)),
      (start_usrp s ⟨some (n, c), co, ce, se⟩ (n + k + 1)).isSome = true) ∧
    (∀ (s : SiGPyC_Controller) (a : List String) (n k : Nat) (c : Int)
        (uo ce se : Option (Nat × Int)),
      (start_controller s a ⟨uo, some (n, c), ce, se⟩ (n + k + 1)).isSome = true) := by
  refine ⟨?_, ?_, ?_, ?_⟩
  · intro s env fuel
    unfold start_usrp
    cases hp : pollUntilExit env.usrpExit 0 fuel with
    | none => rfl
    | some Tc => obtain ⟨T, c⟩ := Tc; simp [optRecorded]
  · intro s a env fuel
    unfold start_controller
    cases hp : pollUntilExit env.controllerExit 0 fuel with
    | none => rfl
    | some Tc => obtain ⟨T, c⟩ := Tc; simp [optRecorded]
  · intro s n k c co ce se
    obtain ⟨T, hT⟩ := pollUntilExit_term n c (n + k + 1) 0 (by omega) (by omega)
    simp [start_usrp, hT]
  · intro s a n k c uo ce se
    obtain ⟨T, hT⟩ := pollUntilExit_term n c (n + k + 1) 0 (by omega) (by omega)
    simp [start_controller, hT]

/-- A handle holding a process that exited on its own is not running. -/
theorem procNotRunning_exited (a : List String) (r : Option Int) (c : Int) :
    procNotRunning (some { args := a, returncode := r, status := .exited c }) = true := rfl

/-- A handle holding a just-killed process is not running. -/
theorem procNotRunning_killProc (e : Option (Nat × Int)) (T : Nat) (p : Proc) :
    procNotRunning (some (killProc e T p)) = true := by
  simp [procNotRunning, killProc_statusNotRunning]

/-- Every sequential step preserves the invariant that no handle slot
holds a running process: start operations only install handles that have
exited or been killed, and mutations do not touch the handle slots. -/
theorem runOp_not_running (s : SiGPyC_Controller) (op : SupOp) (env : ProcEnv) (fuel : Nat)
    (hs : allNotRunning s = true) : (runOp s op env fuel).all allNotRunning = true := by
  simp only [allNotRunning, Bool.and_eq_true] at hs
  obtain ⟨⟨⟨⟨⟨h1, h2⟩, h3⟩, h4⟩, h5⟩, h6⟩ := hs
  cases op with
  | usrp =>
    simp only [runOp]
    unfold start_usrp
    cases hp : pollUntilExit env.usrpExit 0 fuel with
    | none => rfl
    | some Tc =>
      obtain ⟨T, c⟩ := Tc
      simp [allNotRunning, procNotRunning_exited, h2, h3, h4, h5, h6]
  | controller =>
    simp only [runOp]
    unfold start_controller
    cases hp : pollUntilExit env.controllerExit 0 fuel with
    | none => rfl
    | some Tc =>
      obtain ⟨T, c⟩ := Tc
      simp [allNotRunning, procNotRunning_exited, h1, h3, h4, h5, h6]
  | usrpController =>
    simp only [runOp]
    unfold start_usrp_controller
    cases hp : pollBoth env.usrpExit env.controllerExit none none 0 fuel with
    | none => rfl
    | some p =>
      obtain ⟨cu, cc⟩ := p
      simp [allNotRunning, procNotRunning_exited, h3, h4, h5, h6]
  | usrpIperf =>
    simp only [runOp]
    unfold start_usrp_iperf
    cases hp : pollUntilExit env.usrpExit 0 fuel with
    | none => rfl
    | some Tc =>
      obtain ⟨T, c⟩ := Tc
      by_cases ht : truthy s.iperf_client_addr <;>
        simp [allNotRunning, ht, procNotRunning_exited, procNotRunning_killProc,
          h2, h3, h4, h5]
  | iperf =>
    simp only [runOp]
    unfold start_iperf
    cases hp : pollBoth env.clientExit env.serverExit none none 0 fuel with
    | none => rfl
    | some p =>
      obtain ⟨cc, cs⟩ := p
      simp [allNotRunning, procNotRunning_exited, h1, h2, h3, h4]
  | setFileName v => simp [runOp, allNotRunning, h1, h2, h3, h4, h5, h6]
  | setRunTime v => simp [runOp, allNotRunning, h1, h2, h3, h4, h5, h6]
  | setClientAddr v => simp [runOp, allNotRunning, h1, h2, h3, h4, h5, h6]
  | setRate v => simp [runOp, allNotRunning, h1, h2, h3, h4, h5, h6]
  | setMemAddr v => simp [runOp, allNotRunning, h1, h2, h3, h4, h5, h6]

/-- The invariant of runOp_not_running is preserved along any sequence
of sequential steps. -/
theorem runOps_not_running : ∀ (ops : List (SupOp × ProcEnv × Nat)) (s : SiGPyC_Controller),
    allNotRunning s = true → (runOps s ops).all allNotRunning = true := by
  intro ops
  induction ops with
  | nil => intro s hs; simpa [runOps] using hs
  | cons step rest ih =>
    intro s hs
    unfold runOps
    cases hr : runOp s step.1 step.2.1 step.2.2 with
    | none => rfl
    | some s2 =>
      have h := runOp_not_running s step.1 step.2.1 step.2.2 hs
      rw [hr] at h
      simp only [Option.all_some] at h
      exact ih s2 h

/-- C10: under any sequential invocation of the start operations and
field mutations from a freshly constructed supervisor, every state the
run reaches has no handle slot occupied by a running process — every
process a start operation launches has exited or been killed before the
operation returns, so no operation begins while a previously launched
process of the same kind is still running; and a concrete three-step
sequence does run to completion. -/
theorem c10_one_active_handle_per_kind :
    (∀ (wd : String) (tm : Bool) (ops : List (SupOp × ProcEnv × Nat)),
      (runOps (initController wd tm) ops).all allNotRunning = true) ∧
    (runOps (initController "wd" false)
      [(.usrp, ⟨some (0, 0), none, none, none⟩, 1),
       (.usrpIperf, ⟨some (0, 0), none, none, none⟩, 1),
       (.iperf, ⟨none, none, some (0, 0), some (0, 0)⟩, 1)]).isSome = true := by
  refine ⟨?_, by decide⟩
  intro wd tm ops
  exact runOps_not_running ops _ (by cases tm <;> rfl)

/-! ### Claim theorems for the scan pipeline -/

/-- Characterization of the loop of max_cell_level under the hypothesis
that every level converts: the returned index either is the unchanged
input index (when nothing beats the running maximum mx) or points, in
positions counted from i, at the first element whose level both exceeds
mx and is maximal in the list. -/
theorem maxCellLoop_spec :
    ∀ (arr : List Cell) (mx : Int) (index i : Nat),
      (∀ a ∈ arr, ∃ v, pyInt? a.level = .ok v) →
      ∃ r, maxCellLoop arr mx index i = .ok r ∧
        ((r = index ∧ ∀ a ∈ arr, lvl a ≤ mx) ∨
         (∃ j b, arr[j]? = some b ∧ r = i + j ∧ mx < lvl b ∧
           (∀ a ∈ arr, lvl a ≤ lvl b) ∧
           (∀ k a, k < j → arr[k]? = some a → lvl a < lvl b))) := by
  intro arr
  induction arr with
  | nil =>
    intro mx index i _
    exact ⟨index, rfl, Or.inl ⟨rfl, by simp⟩⟩
  | cons a rest ih =>
    intro mx index i hp
    obtain ⟨v, hv⟩ := hp a (List.mem_cons_self a rest)
    have hla : lvl a = v := by simp [lvl, hv]
    have hrest : ∀ b ∈ rest, ∃ v2, pyInt? b.level = .ok v2 :=
      fun b hb => hp b (List.mem_cons_of_mem a hb)
    by_cases hmx : mx < v
    · obtain ⟨r, hr, hcase⟩ := ih v i (i + 1) hrest
      refine ⟨r, by simp [maxCellLoop, hv, hmx, hr], ?_⟩
      rcases hcase with ⟨hri, hall⟩ | ⟨j, b, hjb, hrij, hvb, hmax, hpre⟩
      · refine Or.inr ⟨0, a, by simp, by omega, by rw [hla]; exact hmx, ?_, ?_⟩
        · intro x hx
          rcases List.mem_cons.mp hx with rfl | hx2
          · exact le_refl _
          · rw [hla]; exact hall x hx2
        · intro k x hk _
          omega
      · refine Or.inr ⟨j + 1, b, by simpa using hjb, by omega,
          lt_trans hmx hvb, ?_, ?_⟩
        · intro x hx
          rcases List.mem_cons.mp hx with rfl | hx2
          · rw [hla]; exact le_of_lt hvb
          · exact hmax x hx2
        · intro k x hk hkx
          cases k with
          | zero =>
            simp only [List.getElem?_cons_zero, Option.some.injEq] at hkx
            subst hkx
            rw [hla]; exact hvb
          | succ k2 =>
            simp only [List.getElem?_cons_succ] at hkx
            exact hpre k2 x (by omega) hkx
    · obtain ⟨r, hr, hcase⟩ := ih mx index (i + 1) hrest
      refine ⟨r, by simp [maxCellLoop, hv, hmx, hr], ?_⟩
      rcases hcase with ⟨hri, hall⟩ | ⟨j, b, hjb, hrij, hvb, hmax, hpre⟩
      · refine Or.inl ⟨hri, ?_⟩
        intro x hx
        rcases List.mem_cons.mp hx with rfl | hx2
        · rw [hla]; omega
        · exact hall x hx2
      · refine Or.inr ⟨j + 1, b, by simpa using hjb, by omega, hvb, ?_, ?_⟩
        · intro x hx
          rcases List.mem_cons.mp hx with rfl | hx2
          · rw [hla]; omega
          · exact hmax x hx2
        · intro k x hk hkx
          cases k with
          | zero =>
            simp only [List.getElem?_cons_zero, Option.some.injEq] at hkx
            subst hkx
            rw [hla]; omega
          | succ k2 =>
            simp only [List.getElem?_cons_succ] at hkx
            exact hpre k2 x (by omega) hkx

/-- C6: on a non-empty list of cells whose level fields are numeric
strings (decimal digit strings, as produced by the signal-level regex,
hence with nonnegative values), max_cell_level returns a cell of
strictly maximal level, and among cells sharing the maximal level the
first-encountered one: every cell at an earlier position has a strictly
smaller level. -/
theorem c6_max_cell_level_first_max (arr : List Cell) (hne : arr ≠ [])
    (hnum : ∀ a ∈ arr, ∃ n : Nat, pyInt? a.level = .ok (n : Int)) :
    ∃ (c : Cell) (i : Nat), max_cell_level arr = .ok c ∧ arr[i]? = some c ∧
      (∀ b ∈ arr, lvl b ≤ lvl c) ∧
      (∀ k b, k < i → arr[k]? = some b → lvl b < lvl c) := by
  have hp : ∀ a ∈ arr, ∃ v, pyInt? a.level = .ok v := by
    intro a ha
    obtain ⟨n, h⟩ := hnum a ha
    exact ⟨(n : Int), h⟩
  have hnn : ∀ a ∈ arr, 0 ≤ lvl a := by
    intro a ha
    obtain ⟨n, h⟩ := hnum a ha
    simp [lvl, h]
  obtain ⟨r, hr, hcase⟩ := maxCellLoop_spec arr 0 0 0 hp
  rcases hcase with ⟨hr0, hall⟩ | ⟨j, b, hjb, hrj, hpos, hmax, hpre⟩
  · subst hr0
    obtain ⟨a0, rest, rfl⟩ : ∃ a0 rest, arr = a0 :: rest := by
      cases arr with
      | nil => exact absurd rfl hne
      | cons x xs => exact ⟨x, xs, rfl⟩
    refine ⟨a0, 0, ?_, by simp, ?_, ?_⟩
    · simp [max_cell_level, hr]
    · intro x hx
      have hx0 := hall x hx
      have ha0 := hall a0 (List.mem_cons_self a0 rest)
      have ha0n := hnn a0 (List.mem_cons_self a0 rest)
      omega
    · intro k x hk _
      omega
  · subst hrj
    refine ⟨b, j, ?_, hjb, hmax, hpre⟩
    simp only [Nat.zero_add] at hr
    simp [max_cell_level, hr, hjb]

/-- Witness for C6: the three-cell scenario with levels 42, 77, 10. -/
theorem c6_witness :
    cellsScenario ≠ [] ∧
    (∀ a ∈ cellsScenario, ∃ n : Nat, pyInt? a.level = .ok (n : Int)) ∧
    (∃ (c : Cell) (i : Nat), max_cell_level cellsScenario = .ok c ∧ cellsScenario[i]? = some c ∧
      (∀ b ∈ cellsScenario, lvl b ≤ lvl c) ∧
      (∀ k b, k < i → cellsScenario[k]? = some b → lvl b < lvl c)) := by
  have hnum : ∀ a ∈ cellsScenario, ∃ n : Nat, pyInt? a.level = .ok (n : Int) := by
    intro a ha
    simp [cellsScenario] at ha
    rcases ha with rfl | rfl | rfl
    · exact ⟨42, by decide⟩
    · exact ⟨77, by decide⟩
    · exact ⟨10, by decide⟩
  exact ⟨by decide, hnum, c6_max_cell_level_first_max cellsScenario (by decide) hnum⟩

/-- C7: when no cells are parsed, the pipeline faults: max_cell_level on
the empty list is an IndexError, not a value or a distinct no-networks
result, and in particular whenever get_cells yields the empty list the
subsequent max_cell_level call is that IndexError. -/
theorem c7_empty_scan_index_error :
    max_cell_level ([] : List Cell) = .error .indexError ∧
    ∀ s : String, get_cells s = [] → max_cell_level (get_cells s) = .error .indexError := by
  refine ⟨by decide, ?_⟩
  intro s h
  rw [h]
  decide

/-- Witness for C7: scan text with no occurrence of the word Cell. -/
theorem c7_witness :
    get_cells "" = [] ∧ max_cell_level (get_cells "") = .error .indexError :=
  ⟨by decide, c7_empty_scan_index_error.2 "" (by decide)⟩

/-- The loop of max_cell_level raises TypeError as soon as some cell has
a None level, provided every cell level is either None or convertible
(as is the case for cells built by get_cells, whose levels are regex
digit groups when present). -/
theorem maxCellLoop_typeError :
    ∀ (arr : List Cell) (mx : Int) (index i : Nat),
      (∀ a ∈ arr, a.level = none ∨ ∃ v : Int, pyInt? a.level = .ok v) →
      (∃ a ∈ arr, a.level = none) →
      maxCellLoop arr mx index i = .error .typeError := by
  intro arr
  induction arr with
  | nil =>
    intro mx index i _ hex
    simp at hex
  | cons a rest ih =>
    intro mx index i hp hex
    by_cases hn : a.level = none
    · simp [maxCellLoop, hn, pyInt?]
    · rcases hp a (List.mem_cons_self a rest) with h | ⟨v, hv⟩
      · exact absurd h hn
      · have hex2 : ∃ b ∈ rest, b.level = none := by
          rcases hex with ⟨b, hb, hbn⟩
          rcases List.mem_cons.mp hb with rfl | hb2
          · exact absurd hbn hn
          · exact ⟨b, hb2, hbn⟩
        have hrest : ∀ b ∈ rest, b.level = none ∨ ∃ v : Int, pyInt? b.level = .ok v :=
          fun b hb => hp b (List.mem_cons_of_mem a hb)
        by_cases hmx : mx < v <;>
          simp [maxCellLoop, hv, hmx, ih mx index (i + 1) hrest hex2,
            ih v i (i + 1) hrest hex2]

/-- C8: get_cells produces a cell whose level is None whenever a Cell
block contains no signal-level text (shown on a concrete scan string);
max_cell_level on a list containing such a cell — the other levels
being parsed regex digit groups — raises TypeError at the int
conversion; and on a non-empty list whose levels all convert it returns
a value. -/
theorem c8_none_level_type_error :
    get_cells scanNoLevel = [{ essid := some "foo", level := none }] ∧
    (∀ arr : List Cell,
      (∀ a ∈ arr, a.level = none ∨ ∃ v : Int, pyInt? a.level = .ok v) →
      (∃ a ∈ arr, a.level = none) →
      max_cell_level arr = .error .typeError) ∧
    (∀ arr : List Cell, arr ≠ [] →
      (∀ a ∈ arr, ∃ v : Int, pyInt? a.level = .ok v) →
      ∃ c, max_cell_level arr = .ok c) := by
  refine ⟨by decide, ?_, ?_⟩
  · intro arr hp hex
    simp [max_cell_level, maxCellLoop_typeError arr 0 0 0 hp hex]
  · intro arr hne hp
    obtain ⟨r, hr, hcase⟩ := maxCellLoop_spec arr 0 0 0 hp
    rcases hcase with ⟨hr0, _⟩ | ⟨j, b, hjb, hrj, _, _, _⟩
    · subst hr0
      cases arr with
      | nil => exact absurd rfl hne
      | cons a0 rest => exact ⟨a0, by simp [max_cell_level, hr]⟩
    · subst hrj
      simp only [Nat.zero_add] at hr
      exact ⟨b, by simp [max_cell_level, hr, hjb]⟩

/-- Witness for C8: a singleton list with a None level raises TypeError,
and a singleton list with a numeric level returns a value. -/
theorem c8_witness :
    ((∀ a ∈ [({ essid := none, level := none } : Cell)],
        a.level = none ∨ ∃ v : Int, pyInt? a.level = .ok v) ∧
      (∃ a ∈ [({ essid := none, level := none } : Cell)], a.level = none) ∧
      max_cell_level [({ essid := none, level := none } : Cell)] = .error .typeError) ∧
    (([({ essid := none, level := some "5" } : Cell)] : List Cell) ≠ [] ∧
      (∀ a ∈ [({ essid := none, level := some "5" } : Cell)],
        ∃ v : Int, pyInt? a.level = .ok v) ∧
      ∃ c, max_cell_level [({ essid := none, level := some "5" } : Cell)] = .ok c) := by
  have hbp : ∀ a ∈ [({ essid := none, level := none } : Cell)],
      a.level = none ∨ ∃ v : Int, pyInt? a.level = .ok v := by
    intro a ha
    simp at ha
    subst ha
    exact Or.inl rfl
  have hbe : ∃ a ∈ [({ essid := none, level := none } : Cell)], a.level = none :=
    ⟨{ essid := none, level := none }, by simp, rfl⟩
  have hcp : ∀ a ∈ [({ essid := none, level := some "5" } : Cell)],
      ∃ v : Int, pyInt? a.level = .ok v := by
    intro a ha
    simp at ha
    subst ha
    exact ⟨5, by decide⟩
  exact ⟨⟨hbp, hbe, c8_none_level_type_error.2.1 _ hbp hbe⟩,
    ⟨by decide, hcp, c8_none_level_type_error.2.2 _ (by decide) hcp⟩⟩
